import Mathlib

/-!
Shallow embedding of the panurge authentication middleware
(`navigacontentlab/panurge`): the JWKS key cache, JWT validation,
auth context plumbing, HTTP/Twirp middleware, and the combined
metrics+auth Twirp server hooks.  Each definition is translated from
the corresponding Go source; comments name the source location.
-/

namespace Panurge

/-! ### Base64url decoding (Go `encoding/base64` RawURLEncoding)

`base64.RawURLEncoding.DecodeString` decodes the unpadded URL-safe
alphabet.  Bytes are modelled as `Nat` values below 256. -/

/-- Value of one character of the URL-safe base64 alphabet. -/
def b64Value (c : Char) : Option Nat :=
  if 'A' ≤ c ∧ c ≤ 'Z' then some (c.toNat - 65)
  else if 'a' ≤ c ∧ c ≤ 'z' then some (c.toNat - 97 + 26)
  else if '0' ≤ c ∧ c ≤ '9' then some (c.toNat - 48 + 52)
  else if c = '-' then some 62
  else if c = '_' then some 63
  else none

/-- Decode a list of sextet values into bytes.  A final quantum of one
character is invalid; two and three characters decode to one and two
bytes respectively (unused trailing bits are ignored, matching Go's
non-strict decoder). -/
def b64DecodeSextets : List Nat → Option (List Nat)
  | [] => some []
  | [_] => none
  | [a, b] => some [a * 4 + b / 16]
  | [a, b, c] => some [a * 4 + b / 16, b % 16 * 16 + c / 4]
  | a :: b :: c :: d :: rest =>
    match b64DecodeSextets rest with
    | none => none
    | some tl => some ((a * 4 + b / 16) :: (b % 16 * 16 + c / 4) :: (c % 4 * 64 + d) :: tl)

/-- Model of `base64.RawURLEncoding.DecodeString`: `none` models a
decode error. -/
def rawURLDecode (s : String) : Option (List Nat) :=
  match s.data.mapM b64Value with
  | none => none
  | some sextets => b64DecodeSextets sextets

/-- Big-endian unsigned integer value of a byte string (how
`big.Int.SetBytes` and `binary.BigEndian` interpret bytes). -/
def beBytesToNat (bs : List Nat) : Nat :=
  bs.foldl (fun acc b => acc * 256 + b) 0

/-- Reinterpret an unsigned 64-bit value as Go's signed `int`
(64-bit platform): values at or above 2^63 wrap to negatives. -/
def int64OfUInt64 (v : Nat) : Int :=
  if v < 2 ^ 63 then (v : Int) else (v : Int) - 2 ^ 64

/-! ### `jwksKey` and RSA key decoding (`navigaid/jwks.go`) -/

/-- `jwksKey` from `navigaid/jwks.go` (JSON fields `kty`, `use`,
`alg`, `kid`, `n`, `e`). -/
structure JwksKey where
  kty : String
  use : String
  alg : String
  kid : String
  n : String
  e : String
deriving Repr, DecidableEq

/-- `jwksKey.nAsBigInt`: base64url-decode the modulus and interpret
it as an unsigned big-endian arbitrary-precision integer. -/
def JwksKey.nAsBigInt (k : JwksKey) : Except String Nat :=
  match rawURLDecode k.n with
  | none => .error "illegal base64 data"
  | some data => .ok (beBytesToNat data)

/-- `jwksKey.eAsInt`: base64url-decode the exponent; if fewer than 8
bytes were decoded, left-pad with zero bytes to length 8; read the
first 8 bytes as a big-endian `uint64` (`binary.Read` consumes
exactly 8 bytes) and cast to Go's signed `int` (`int(e)`). -/
def JwksKey.eAsInt (k : JwksKey) : Except String Int :=
  match rawURLDecode k.e with
  | none => .error "illegal base64 data"
  | some data =>
    .ok (int64OfUInt64 (beBytesToNat
      ((if data.length < 8 then List.replicate (8 - data.length) 0 ++ data else data).take 8)))

/-- `rsa.PublicKey`: modulus `N` (big integer) and exponent `E`
(Go `int`). -/
structure RSAPublicKey where
  n : Nat
  e : Int
deriving Repr, DecidableEq

/-- `jwksKey.publicKey`: build the RSA public key from the decoded
modulus and exponent, propagating decode errors. -/
def JwksKey.publicKey (k : JwksKey) : Except String RSAPublicKey :=
  match k.nAsBigInt with
  | .error msg => .error msg
  | .ok nv =>
    match k.eAsInt with
    | .error msg => .error msg
    | .ok ev => .ok ⟨nv, ev⟩

/-! ### Claims (`navigaid/claims.go`) -/

/-- The temporal registered JWT claims consumed by validation
(`jwt.StandardClaims` fields used by `Claims.Valid`).  `none` models
an absent claim. -/
structure RegisteredClaims where
  subject : String
  expiresAt : Option Int
  issuedAt : Option Int
  notBefore : Option Int
deriving Repr, DecidableEq

/-- `Userinfo` from `navigaid/claims.go`. -/
structure Userinfo where
  givenName : String
  familyName : String
  email : String
  picture : String
deriving Repr, DecidableEq

/-- `PermissionsClaim`: per-unit permissions (`units`, a Go
`map[string][]string`, modelled as an association list) and
organisation-wide permissions (`org`). -/
structure PermissionsClaim where
  units : List (String × List String)
  org : List String
deriving Repr, DecidableEq

/-- Go map indexing `p.Units[unit]`: a missing key yields the nil
slice. -/
def PermissionsClaim.unitsLookup (p : PermissionsClaim) (unit : String) : List String :=
  match p.units.find? (fun kv => kv.1 = unit) with
  | none => []
  | some kv => kv.2

/-- `PermissionsClaim.PermissionsInUnit`: the Go function builds a
`map[string]bool` holding `true` for every organisation permission
and every permission of the requested unit; the map is modelled by
its characteristic function (lookup of an absent key is `false`). -/
def PermissionsClaim.PermissionsInUnit (p : PermissionsClaim) (unit : String) : String → Bool :=
  fun s => p.org.contains s || (p.unitsLookup unit).contains s

/-- `PermissionsClaim.PermissionsInOrganisation`, modelled as its
characteristic function. -/
def PermissionsClaim.PermissionsInOrganisation (p : PermissionsClaim) : String → Bool :=
  fun s => p.org.contains s

/-- `Claims` from `navigaid/claims.go`: embedded registered claims
plus `org`, `groups`, `userinfo`, `ntt` (token type) and
`permissions`. -/
structure Claims where
  registered : RegisteredClaims
  org : String
  groups : List String
  userinfo : Userinfo
  tokenType : String
  permissions : PermissionsClaim
deriving Repr, DecidableEq

/-- `Claims.HasPermissionsInUnit`: every requested permission must be
present in the unit's permission set (which inherits the
organisation's). -/
def Claims.HasPermissionsInUnit (c : Claims) (unit : String) (permissions : List String) : Bool :=
  permissions.all (fun p => c.permissions.PermissionsInUnit unit p)

/-- The Go zero value `Claims{}` returned on every validation
failure. -/
def zeroClaims : Claims :=
  ⟨⟨"", none, none, none⟩, "", [], ⟨"", "", "", ""⟩, "", ⟨[], []⟩⟩

/-- `TokenTypeAccessToken` from `navigaid/claims.go`. -/
def TokenTypeAccessToken : String := "access_token"

/-! ### The JWKS key cache (`navigaid/jwks.go`, `JWKS.getKey`)

The mutable fields of the `JWKS` struct (`jwks`, `jwksStaleAfter`)
together with the configured `ttl` form the cache state.  Time is
modelled as `Int` timestamps; the outcome of the (injectable) HTTP
fetch is passed in as an `Except` value.  `sync.Mutex` serialises
every `getKey` call, so concurrent executions are modelled as
sequential compositions of whole calls (`runGetKeys`). -/

/-- `jwksResponse` from `navigaid/jwks.go` (the `keysMeta` field is
never read by the cache and is omitted). -/
structure JwksResponse where
  keys : List JwksKey
  maxTokenTTL : Int
deriving Repr, DecidableEq

/-- Mutable cache state of the `JWKS` struct.  `jwks = none` models
the initial nil pointer; the Go zero `time.Time` start value for
`jwksStaleAfter` is just some timestamp in the past. -/
structure JWKSState where
  ttl : Int
  jwksStaleAfter : Int
  jwks : Option JwksResponse
deriving Repr, DecidableEq

/-- Outcome of a key lookup.  `nilDeref` marks the (unreachable in
practice) nil-pointer dereference of `j.jwks.Keys` when the cache is
fresh but was never populated. -/
inductive GetKeyRes where
  | ok (k : JwksKey)
  | err (msg : String)
  | nilDeref
deriving Repr, DecidableEq

/-- The linear scan `for _, key := range j.jwks.Keys` returning the
first key whose `Kid` matches. -/
def findKey : List JwksKey → String → GetKeyRes
  | [], _ => .err "key not found"
  | k :: ks, kid => if k.kid = kid then .ok k else findKey ks kid

/-- `JWKS.getKey`: under the lock, refetch when `time.Now()` is
strictly after `jwksStaleAfter` (`time.Time.After`); on fetch success
replace the cached set wholesale and set `jwksStaleAfter = now + ttl`;
on fetch failure return the wrapped error leaving the state
untouched.  Otherwise scan the cached keys.  The `Bool` component
records whether a fetch was attempted. -/
def getKey (st : JWKSState) (now : Int) (fetch : Except String JwksResponse) (kid : String) :
    JWKSState × Bool × GetKeyRes :=
  if st.jwksStaleAfter < now then
    match fetch with
    | .error msg => (st, true, .err ("failed to fetch jwks: " ++ msg))
    | .ok res =>
      ({ st with jwks := some res, jwksStaleAfter := now + st.ttl }, true,
        findKey res.keys kid)
  else
    match st.jwks with
    | none => (st, false, .nilDeref)
    | some res => (st, false, findKey res.keys kid)

/-- Sequential composition of `getKey` calls (the order in which the
mutex admitted the callers), accumulating the number of fetch
attempts and the per-caller results. -/
def runGetKeys (st : JWKSState) (fetch : Except String JwksResponse) :
    List (Int × String) → JWKSState × Nat × List GetKeyRes
  | [] => (st, 0, [])
  | (now, kid) :: rest =>
    match getKey st now fetch kid with
    | (st1, fetched, r) =>
      match runGetKeys st1 fetch rest with
      | (st2, n, rs) => (st2, (if fetched then 1 else 0) + n, r :: rs)

/-! ### JWT validation (`navigaid/jwks.go`, `JWKS.ValidateToken`)

`jwt.ParseWithClaims` (dgrijalva/jwt-go) is an external library; its
control flow is modelled faithfully: split/decode the token, resolve
the signing method from the header `alg` (unknown algorithms fail
before the key function runs), call the key function, validate the
temporal claims, verify the signature, and fail if either of the last
two steps failed.  Structural token decoding and RSA signature
verification are abstracted: the already-decoded token is the
`TokenInput` and the cryptographic check is the `verify` parameter
(applied to the signing string, the signature and the resolved public
key). -/

/-- Decoded JOSE header: the `alg` value and the optional `kid`
(`token.Header` is a JSON map, so `kid` can be absent). -/
structure JwtHeader where
  alg : String
  kid : Option String
deriving Repr, DecidableEq

/-- A token as seen after structural parsing: either malformed
(wrong segment count / bad base64 / bad JSON) or decoded into header,
claims, signing string and signature. -/
inductive TokenInput where
  | malformed
  | parsed (header : JwtHeader) (claims : Claims) (signingString : String) (signature : String)
deriving Repr, DecidableEq

/-- The signing methods registered by dgrijalva/jwt-go; a header
`alg` outside this list fails in `ParseUnverified`, before the key
function is consulted. -/
def knownAlgs : List String :=
  ["HS256", "HS384", "HS512", "RS256", "RS384", "RS512",
   "ES256", "ES384", "ES512", "PS256", "PS384", "PS512", "none"]

/-- `token.Method.(*jwt.SigningMethodRSA)`: the RSA family. -/
def isRSAMethod (alg : String) : Bool :=
  alg = "RS256" || alg = "RS384" || alg = "RS512"

/-- `Claims.Valid()` temporal checks (dgrijalva/jwt-go
`StandardClaims.Valid` with non-required fields): expiry must not be
passed, issued-at and not-before must not be in the future; absent
claims are skipped. -/
def claimsValid (now : Int) (c : RegisteredClaims) : Bool :=
  (match c.expiresAt with | none => true | some exp => decide (now ≤ exp)) &&
  (match c.issuedAt with | none => true | some iat => decide (iat ≤ now)) &&
  (match c.notBefore with | none => true | some nbf => decide (nbf ≤ now))

/-- Outcome of the key function closure inside `ValidateToken`.
`panicked` models the Go panic of the unchecked type assertion
`token.Header["kid"].(string)` when the header has no `kid`. -/
inductive KeyfuncRes where
  | ok (pk : RSAPublicKey)
  | err (msg : String)
  | panicked
deriving Repr, DecidableEq

/-- The key function closure passed to `jwt.ParseWithClaims` in
`JWKS.ValidateToken`: reject non-RSA signing methods, reject
unexpected token types, resolve the key by `kid` (panicking if `kid`
is absent), require equal algorithms, and decode the public key.
The `Nat` counts the `getKey` calls performed. -/
def validateTokenKeyfunc (st : JWKSState) (now : Int) (fetch : Except String JwksResponse)
    (header : JwtHeader) (claims : Claims) (tokenType : String) :
    JWKSState × Nat × KeyfuncRes :=
  if ¬ isRSAMethod header.alg then
    (st, 0, .err "unexpected signing method")
  else if claims.tokenType ≠ tokenType then
    (st, 0, .err "unexpected token type")
  else
    match header.kid with
    | none => (st, 0, .panicked)
    | some kid =>
      match getKey st now fetch kid with
      | (st', _, .err _) => (st', 1, .err "unknown key id")
      | (st', _, .nilDeref) => (st', 1, .panicked)
      | (st', _, .ok jwk) =>
        if header.alg ≠ jwk.alg then
          (st', 1, .err "algorithm is not the same")
        else
          match jwk.publicKey with
          | .error msg => (st', 1, .err msg)
          | .ok pk => (st', 1, .ok pk)

/-- A Go `(Claims, error)` return value, or a propagated panic. -/
inductive GoResult where
  | ret (claims : Claims) (err : Option String)
  | panicked
deriving Repr, DecidableEq

/-- `JWKS.ValidateToken`: run `jwt.ParseWithClaims` with the key
function above; on any parse/validation error return the zero
`Claims` and the wrapped error, otherwise the decoded claims.  The
`Nat` counts `getKey` calls. -/
def ValidateToken (verify : String → String → RSAPublicKey → Bool)
    (st : JWKSState) (now : Int) (fetch : Except String JwksResponse)
    (tok : TokenInput) (tokenType : String) : JWKSState × Nat × GoResult :=
  match tok with
  | .malformed =>
    (st, 0, .ret zeroClaims (some "failed to parse token: token contains an invalid number of segments"))
  | .parsed header claims signingString signature =>
    if knownAlgs.contains header.alg then
      match validateTokenKeyfunc st now fetch header claims tokenType with
      | (st', calls, .panicked) => (st', calls, .panicked)
      | (st', calls, .err msg) =>
        (st', calls, .ret zeroClaims (some ("failed to parse token: " ++ msg)))
      | (st', calls, .ok pk) =>
        if claimsValid now claims.registered && verify signingString signature pk then
          (st', calls, .ret claims none)
        else
          (st', calls, .ret zeroClaims (some "failed to parse token: token is invalid"))
    else
      (st, 0, .ret zeroClaims (some "failed to parse token: signing method (alg) is unavailable."))

/-- `JWKS.Validate`: `ValidateToken` at `TokenTypeAccessToken`. -/
def Validate (verify : String → String → RSAPublicKey → Bool)
    (st : JWKSState) (now : Int) (fetch : Except String JwksResponse)
    (tok : TokenInput) : JWKSState × Nat × GoResult :=
  ValidateToken verify st now fetch tok TokenTypeAccessToken

/-- The `(Claims, error)` outcome of a `ValidateToken` call. -/
def validateResult (verify : String → String → RSAPublicKey → Bool)
    (st : JWKSState) (now : Int) (fetch : Except String JwksResponse)
    (tok : TokenInput) (tokenType : String) : GoResult :=
  (ValidateToken verify st now fetch tok tokenType).2.2

/-! ### Auth context (`auth.go`: `GetAuth` / `SetAuth`) and bearer
token extraction (`navigaid/access.go`: `getAuthToken`) -/

/-- The errors stored in the auth context by the middleware:
`ErrNoToken{}` from `getAuthToken`, or a token-validation error. -/
inductive AuthErr where
  | noToken
  | validation (msg : String)
deriving Repr, DecidableEq

/-- `AuthInfo` from `auth.go`. -/
structure AuthInfo where
  accessToken : String
  claims : Claims
deriving Repr, DecidableEq

/-- The Go zero value `AuthInfo{}`. -/
def zeroAuthInfo : AuthInfo := ⟨"", zeroClaims⟩

/-- What a request context holds under `authInfoKey`: nothing
(`none`, the key was never set), or the `ai{Ac, Err}` pair stored by
`SetAuth`. -/
abbrev AuthCtx : Type := Option (AuthInfo × Option AuthErr)

/-- `SetAuth`: derive a context holding the `ai{Ac, Err}` value. -/
def SetAuth (_ctx : AuthCtx) (auth : AuthInfo) (err : Option AuthErr) : AuthCtx :=
  some (auth, err)

/-- Result of `GetAuth`: the three context states a consumer can
observe. -/
inductive GetAuthRes where
  | ok (info : AuthInfo)
  | noAuthInfo
  | err (e : AuthErr)
deriving Repr, DecidableEq

/-- `GetAuth`: no value under the key means "no authentication
information in context"; a stored error is returned as the error
(with the zero `AuthInfo`); otherwise the stored `AuthInfo`. -/
def GetAuth (ctx : AuthCtx) : GetAuthRes :=
  match ctx with
  | none => .noAuthInfo
  | some (_, some e) => .err e
  | some (info, none) => .ok info

/-- ASCII case folding; `strings.ToLower` on the header scheme
(`Bearer` variants are ASCII). -/
def asciiLower (c : Char) : Char :=
  if 'A' ≤ c ∧ c ≤ 'Z' then Char.ofNat (c.toNat + 32) else c

/-- `strings.Cut(s, " ")`: the part before the first space and the
part after it (everything before the end, spaces included); with no
space the whole string is "before" and "after" is empty. -/
def cutSpace : List Char → List Char × List Char
  | [] => ([], [])
  | c :: cs =>
    if c = ' ' then ([], cs)
    else
      let r := cutSpace cs
      (c :: r.1, r.2)

/-- `getAuthToken` from `navigaid/access.go`: split the
`Authorization` value at the first space; an empty token or a scheme
other than (case-insensitive) `bearer` is `ErrNoToken{}`. -/
def getAuthToken (auth : String) : Except AuthErr String :=
  let cut := cutSpace auth.data
  if cut.2 = [] then .error .noToken
  else if ¬ (cut.1.map asciiLower = "bearer".data) then .error .noToken
  else .ok (String.mk cut.2)

/-! ### HTTP middleware and Twirp auth hook (`middleware.go`) -/

/-- Observable outcome of `HTTPMiddleware` on one request: the
wrapped handler was invoked (exactly once, with the given derived
context), or validation panicked and the handler never ran. -/
inductive MiddlewareOutcome where
  | handlerCalled (ctx : AuthCtx)
  | panicked
deriving Repr, DecidableEq

/-- `HTTPMiddleware`: extract the bearer token (on failure record the
error with `SetAuth` and call the handler), validate it (on failure
record the error and call the handler), on success record the token
and claims and call the handler.  `parse` stands for the structural
JWT decoding of the token string; the `annotate` callback (only run
on success) has no observable effect on the recorded context and is
not modelled. -/
def HTTPMiddleware (parse : String → TokenInput)
    (verify : String → String → RSAPublicKey → Bool)
    (st : JWKSState) (now : Int) (fetch : Except String JwksResponse)
    (authHeader : String) (reqCtx : AuthCtx) : JWKSState × MiddlewareOutcome :=
  match getAuthToken authHeader with
  | .error e => (st, .handlerCalled (SetAuth reqCtx zeroAuthInfo (some e)))
  | .ok accessToken =>
    match Validate verify st now fetch (parse accessToken) with
    | (st', _, .panicked) => (st', .panicked)
    | (st', _, .ret _ (some msg)) =>
      (st', .handlerCalled (SetAuth reqCtx zeroAuthInfo (some (.validation msg))))
    | (st', _, .ret claims none) =>
      (st', .handlerCalled (SetAuth reqCtx ⟨accessToken, claims⟩ none))

/-- The only error the Twirp auth hook produces:
`twirp.NewError(twirp.Unauthenticated, "Unauthenticated")`. -/
inductive TwirpErr where
  | unauthenticated
deriving Repr, DecidableEq

/-- Return value of `TwirpAuthenticate`: the context/error pair, or a
propagated validation panic. -/
inductive TwirpAuthOutcome where
  | ret (ctx : AuthCtx) (err : Option TwirpErr)
  | panicked
deriving Repr, DecidableEq

/-- `TwirpAuthenticate` (the body of the hook installed by
`NewTwirpAuthHook` as `RequestRouted`): missing request headers, a
missing bearer token, or a failed validation return the *unchanged*
context together with an Unauthenticated error; only on success is
the auth result stored with `SetAuth`.  `headers` is the
`twirp.HTTPRequestHeaders` lookup: `none` when absent, otherwise the
`Authorization` value. -/
def TwirpAuthenticate (parse : String → TokenInput)
    (verify : String → String → RSAPublicKey → Bool)
    (st : JWKSState) (now : Int) (fetch : Except String JwksResponse)
    (headers : Option String) (ctx : AuthCtx) : JWKSState × TwirpAuthOutcome :=
  match headers with
  | none => (st, .ret ctx (some .unauthenticated))
  | some authHeader =>
    match getAuthToken authHeader with
    | .error _ => (st, .ret ctx (some .unauthenticated))
    | .ok accessToken =>
      match Validate verify st now fetch (parse accessToken) with
      | (st', _, .panicked) => (st', .panicked)
      | (st', _, .ret _ (some _)) => (st', .ret ctx (some .unauthenticated))
      | (st', _, .ret claims none) =>
        (st', .ret (SetAuth ctx ⟨accessToken, claims⟩ none) none)

/-! ### Twirp server hooks and their combination (`app.go`)

A hook's side effects (Prometheus counters) live outside the request
context, so a hook stage is modelled as a function from an external
world and a context to a new world, a new context and an optional
error.  Go errors are an open type; `fmt.Errorf("%w", err)` is the
`wrap` constructor. -/

/-- A Go error value with explicit `%w` wrapping structure. -/
inductive GoErr where
  | base (msg : String)
  | wrap (inner : GoErr)
deriving Repr, DecidableEq

/-- `twirp.ServerHooks`, restricted to the `RequestRouted` field (the
only field `CombineMetricsAndAuthHooks` overrides; the remaining
fields of the combined hooks come unchanged from
`twirp.ChainHooks(metrics, auth)` and no claim concerns them).  A
`none` field models a nil function pointer. -/
structure ServerHooks (W C : Type) where
  requestRouted : Option (W → C → W × C × Option GoErr)

/-- Invoke a hook stage Go-style: a nil function is a no-op without
error. -/
def ServerHooks.run {W C : Type} (h : ServerHooks W C) (w : W) (ctx : C) :
    W × C × Option GoErr :=
  match h.requestRouted with
  | some f => f w ctx
  | none => (w, ctx, none)

/-- `CombineMetricsAndAuthHooks` (`app.go`): the combined
`RequestRouted` runs the auth hook first, keeping its error; then
unconditionally runs the metrics hook, keeping its context only when
it reports an error (verbatim from the source) and discarding that
error; a non-nil auth error is wrapped before being returned. -/
def CombineMetricsAndAuthHooks {W C : Type} (metrics auth : ServerHooks W C) :
    ServerHooks W C :=
  { requestRouted := some (fun w ctx =>
      match (match auth.requestRouted with
             | some f => f w ctx
             | none => (w, ctx, none)) with
      | (w1, ctx1, err) =>
        match (match metrics.requestRouted with
               | some f =>
                 match f w1 ctx1 with
                 | (w2, mCtx, mErr) => (w2, if mErr.isSome then mCtx else ctx1)
               | none => (w1, ctx1)) with
        | (w3, ctx3) => (w3, ctx3, err.map GoErr.wrap)) }

/-! ### The metrics `RequestRouted` hook (`app.go`,
`NewTwirpMetricsHooks`) -/

/-- The `rpc_requests_total` counter vector, labelled by
(service, method, organisation); modelled as its value function. -/
def MetricsWorld : Type := String × String × String → Nat

/-- The context fields the metrics hook reads:
`twirp.ServiceName`/`twirp.MethodName` (absent when the call is not
routed) and the auth context consulted by the default `contextOrg`
function. -/
structure MetricsCtx where
  serviceName : Option String
  methodName : Option String
  auth : AuthCtx

/-- The default `contextOrg` of `NewTwirpMetricsHooks`: the `org` of
the authenticated claims, or `""` when `GetAuth` fails. -/
def metricsContextOrg (ctx : MetricsCtx) : String :=
  match GetAuth ctx.auth with
  | .ok info => info.claims.org
  | _ => ""

/-- Increment one labelled counter
(`requestsReceived.WithLabelValues(...).Inc()`). -/
def incrCounter (w : MetricsWorld) (label : String × String × String) : MetricsWorld :=
  fun l => if l = label then w l + 1 else w l

/-- The metrics `RequestRouted` hook: with service and method names
present, increment the request counter labelled by service, method
and organisation; otherwise do nothing.  It never returns an error.
(The optional X-Ray segment annotations touch no modelled state.) -/
def metricsRequestRouted (w : MetricsWorld) (ctx : MetricsCtx) :
    MetricsWorld × MetricsCtx × Option GoErr :=
  match ctx.serviceName, ctx.methodName with
  | some s, some m => (incrCounter w (s, m, metricsContextOrg ctx), ctx, none)
  | _, _ => (w, ctx, none)

/-- The metrics hooks restricted to `RequestRouted`. -/
def twirpMetricsHooks : ServerHooks MetricsWorld MetricsCtx :=
  { requestRouted := some metricsRequestRouted }

/-! ### Concrete fixtures used by witnesses and counterexamples -/

/-- A key set with a single RSA key `k1` (the common public exponent
`AQAB`). -/
def jwkA : JwksKey := ⟨"RSA", "sig", "RS256", "k1", "AQAB", "AQAB"⟩

/-- A fetched key-set document holding `jwkA`. -/
def resA : JwksResponse := ⟨[jwkA], 300⟩

/-- A cache state that is fresh at time 50 (`jwksStaleAfter = 100`)
and holds `resA`. -/
def stA : JWKSState := ⟨600, 100, some resA⟩

/-- A signature oracle that accepts everything (the concrete
cryptography is irrelevant to the control-flow claims). -/
def verifyTrue : String → String → RSAPublicKey → Bool := fun _ _ _ => true

/-- Claims of a valid access token for organisation `hms-govt` with
the unit permission `access-building` on unit `mi6`. -/
def claimsA : Claims :=
  ⟨⟨"hms-govt://agent/007", none, none, none⟩, "hms-govt", [], ⟨"", "", "", ""⟩,
   "access_token", ⟨[("mi6", ["access-building"])], ["permission-to-kill"]⟩⟩

/-- A well-formed token carrying `claimsA`, signed by key `k1`. -/
def tokA : TokenInput := .parsed ⟨"RS256", some "k1"⟩ claimsA "hdr.body" "sig"

/-- A structural parser that always yields `tokA`. -/
def parseA : String → TokenInput := fun _ => tokA

/-- A token whose header carries no `kid` at all but is otherwise a
plausible access token: it drives `ValidateToken` into the unchecked
type assertion `token.Header["kid"].(string)`. -/
def tokNoKid : TokenInput := .parsed ⟨"RS256", none⟩ claimsA "hdr.body" "sig"

/-- A structural parser that always yields `tokNoKid`. -/
def parseNoKid : String → TokenInput := fun _ => tokNoKid

/-- An exponent whose decoded form is eight `0xff` bytes. -/
def jwkFF : JwksKey := ⟨"RSA", "sig", "RS512", "ff", "AQAB", "__________8"⟩

/-! ### Helper lemmas -/

/-- Leading zero bytes do not change the big-endian value. -/
theorem beBytesToNat_replicate_zero_append (k : Nat) (bs : List Nat) :
    beBytesToNat (List.replicate k 0 ++ bs) = beBytesToNat bs := by
  induction k with
  | zero => rfl
  | succ n ih =>
    have h : beBytesToNat (List.replicate (n + 1) 0 ++ bs)
        = beBytesToNat (List.replicate n 0 ++ bs) := by
      simp [beBytesToNat, List.replicate_succ]
    rw [h, ih]

/-! ### C8 — exponent decoding -/

/-- C8 (counterexample): the claim says `eAsInt` returns the unsigned
big-endian value of every decoded exponent of at most 8 bytes.  For
the 8-byte exponent `0xffffffffffffffff` (base64url `__________8`)
the Go cast `int(e)` wraps: the function returns `-1`, not
`18446744073709551615`. -/
theorem c8_counterexample :
    rawURLDecode jwkFF.e = some (List.replicate 8 255)
    ∧ (List.replicate 8 255).length ≤ 8
    ∧ beBytesToNat (List.replicate 8 255) = 18446744073709551615
    ∧ jwkFF.eAsInt = .ok (-1)
    ∧ (-1 : Int) ≠ (18446744073709551615 : Int) := by
  refine ⟨by decide, by decide, by decide, rfl, by decide⟩

/-- C8 (amended): for every base64url-encoded (unpadded) exponent
string whose decoded byte string is at most 8 bytes long and whose
unsigned big-endian value fits a signed 64-bit integer (below 2^63),
`jwksKey.eAsInt` returns the unsigned big-endian integer value of
those bytes, left-padding them to 8 bytes before decoding; in
particular short exponents are decoded correctly without assuming a
4-byte length. -/
theorem c8_eAsInt (k : JwksKey) (bs : List Nat)
    (hdec : rawURLDecode k.e = some bs) (hlen : bs.length ≤ 8)
    (hval : beBytesToNat bs < 2 ^ 63) :
    k.eAsInt = .ok (beBytesToNat bs) := by
  simp only [JwksKey.eAsInt, hdec]
  by_cases h : bs.length < 8
  · have hl : (List.replicate (8 - bs.length) 0 ++ bs).length = 8 := by
      simp only [List.length_append, List.length_replicate]
      omega
    rw [if_pos h, List.take_of_length_le (le_of_eq hl),
      beBytesToNat_replicate_zero_append, int64OfUInt64, if_pos hval]
  · rw [if_neg h, List.take_of_length_le (by omega : bs.length ≤ 8),
      int64OfUInt64, if_pos hval]

/-- C8 (witness): the common 3-byte exponent `AQAB` decodes to
`65537 = beBytesToNat [1, 0, 1]`. -/
theorem c8_witness :
    rawURLDecode jwkA.e = some [1, 0, 1]
    ∧ [1, 0, 1].length ≤ 8
    ∧ beBytesToNat [1, 0, 1] < 2 ^ 63
    ∧ beBytesToNat [1, 0, 1] = 65537
    ∧ jwkA.eAsInt = .ok (beBytesToNat [1, 0, 1]) :=
  ⟨by decide, by decide, by decide, by decide,
   c8_eAsInt jwkA [1, 0, 1] (by decide) (by decide) (by decide)⟩

/-! ### C9 — permission checks -/

/-- C9: `Claims.HasPermissionsInUnit u ps` is `true` exactly when
every permission in `ps` lies in the union of the organisation-wide
permissions and the permissions of unit `u` (a flat set-membership
test, with unit permissions inheriting the organisation's); the empty
list always passes. -/
theorem c9_hasPermissionsInUnit (c : Claims) (unit : String) (ps : List String) :
    (c.HasPermissionsInUnit unit ps = true ↔
      ∀ p ∈ ps, p ∈ c.permissions.org ∨ p ∈ c.permissions.unitsLookup unit)
    ∧ c.HasPermissionsInUnit unit [] = true := by
  refine ⟨?_, rfl⟩
  simp [Claims.HasPermissionsInUnit, PermissionsClaim.PermissionsInUnit, List.all_eq_true]

/-- C9 (witness): the `hms-govt` token with unit permission
`access-building` on `mi6` passes a check requiring exactly that
permission, and fails one additionally requiring `read-files`. -/
theorem c9_witness :
    claimsA.HasPermissionsInUnit "mi6" ["access-building"] = true
    ∧ claimsA.HasPermissionsInUnit "mi6" ["access-building", "read-files"] = false :=
  ⟨(c9_hasPermissionsInUnit claimsA "mi6" ["access-building"]).1.mpr (by decide),
   by decide⟩

/-! ### C4 — cache refresh discipline -/

/-- A stale-boundary state: `jwksStaleAfter = 5`. -/
def stBoundary : JWKSState := ⟨600, 5, none⟩

/-- An empty fetched key set. -/
def resEmpty : JwksResponse := ⟨[], 0⟩

/-- C4 (counterexample): the claim says a fetch is performed if and
only if `now >= staleAfter`.  At `now = staleAfter = 5` the code's
`time.Now().After(j.jwksStaleAfter)` is strict, so no fetch is
performed although the claim demands one. -/
theorem c4_counterexample :
    (5 : Int) ≥ stBoundary.jwksStaleAfter
    ∧ (getKey stBoundary 5 (.ok resEmpty) "kid").2.1 ≠ true := by
  refine ⟨by decide, by decide⟩

/-- A fresh-cache `getKey` call performs no fetch and leaves the
state unchanged. -/
theorem getKey_fresh (st : JWKSState) (now : Int) (fetch : Except String JwksResponse)
    (kid : String) (h : ¬ st.jwksStaleAfter < now) :
    (getKey st now fetch kid).1 = st ∧ (getKey st now fetch kid).2.1 = false := by
  unfold getKey
  rw [if_neg h]
  cases st.jwks <;> simp

/-- C4 (amended): for every call to `JWKS.getKey`, a key-set fetch is
performed if and only if the call occurs when `now` is strictly after
`staleAfter`; on a successful fetch the cached key set is replaced
wholesale, `staleAfter` becomes `now + ttl`, and the lookup scans the
new keys; on a failed fetch the call returns the error while the
cached key set and `staleAfter` are left unchanged (so every
subsequent stale call retries the fetch); and any sequence of calls
at times not after `staleAfter` performs no fetch at all and leaves
the state unchanged. -/
theorem c4_getKeyCache (st : JWKSState) (now : Int)
    (fetch : Except String JwksResponse) (kid : String) :
    ((getKey st now fetch kid).2.1 = true ↔ st.jwksStaleAfter < now)
    ∧ (∀ res, st.jwksStaleAfter < now → fetch = .ok res →
        (getKey st now fetch kid).1
            = { st with jwks := some res, jwksStaleAfter := now + st.ttl }
          ∧ (getKey st now fetch kid).2.2 = findKey res.keys kid)
    ∧ (∀ msg, st.jwksStaleAfter < now → fetch = .error msg →
        (getKey st now fetch kid).1 = st
          ∧ (getKey st now fetch kid).2.2 = .err ("failed to fetch jwks: " ++ msg))
    ∧ (∀ calls : List (Int × String), (∀ p ∈ calls, ¬ st.jwksStaleAfter < p.1) →
        (runGetKeys st fetch calls).1 = st ∧ (runGetKeys st fetch calls).2.1 = 0) := by
  refine ⟨?_, ?_, ?_, ?_⟩
  · unfold getKey
    by_cases h : st.jwksStaleAfter < now
    · rw [if_pos h]
      cases fetch <;> simp [h]
    · rw [if_neg h]
      cases st.jwks <;> simp [h]
  · intro res h hf
    unfold getKey
    rw [if_pos h, hf]
    exact ⟨rfl, rfl⟩
  · intro msg h hf
    unfold getKey
    rw [if_pos h, hf]
    exact ⟨rfl, rfl⟩
  · intro calls hcalls
    induction calls with
    | nil => exact ⟨rfl, rfl⟩
    | cons p rest ih =>
      have hp := hcalls p (List.mem_cons_self p rest)
      have hrest := ih (fun q hq => hcalls q (List.mem_cons_of_mem p hq))
      obtain ⟨hst, hflag⟩ := getKey_fresh st p.1 fetch p.2 hp
      cases hgk : getKey st p.1 fetch p.2 with
      | mk st1 b =>
        cases b with
        | mk fetched r =>
          have hst1 : st1 = st := by rw [hgk] at hst; exact hst
          have hfetched : fetched = false := by rw [hgk] at hflag; exact hflag
          cases hrun : runGetKeys st1 fetch rest with
          | mk st2 b2 =>
            cases b2 with
            | mk n rs =>
              have h1 : st2 = st := by
                rw [hst1] at hrun; rw [hrun] at hrest; exact hrest.1
              have h2 : n = 0 := by
                rw [hst1] at hrun; rw [hrun] at hrest; exact hrest.2
              constructor
              · show (runGetKeys st fetch (p :: rest)).1 = st
                simp only [runGetKeys]
                cases p with
                | mk pt pk =>
                  rw [hgk, hrun, h1]
              · show (runGetKeys st fetch (p :: rest)).2.1 = 0
                simp only [runGetKeys]
                cases p with
                | mk pt pk =>
                  rw [hgk, hrun]
                  simp [hfetched, h2]

/-- C4 (witness): at `now = 20` on a state stale since 10, a
successful fetch of `resA` installs it and sets
`staleAfter = 20 + 600`; a failed fetch leaves the state untouched;
and two calls within the TTL window of `stA` fetch nothing. -/
theorem c4_witness :
    ((10 : Int) < 20)
    ∧ ((getKey ⟨600, 10, none⟩ 20 (.ok resA) "k1").1
          = { (⟨600, 10, none⟩ : JWKSState) with
                jwks := some resA, jwksStaleAfter := 20 + 600 }
        ∧ (getKey ⟨600, 10, none⟩ 20 (.ok resA) "k1").2.2 = findKey resA.keys "k1")
    ∧ ((getKey ⟨600, 10, none⟩ 20 (.error "boom") "k1").1 = ⟨600, 10, none⟩
        ∧ (getKey ⟨600, 10, none⟩ 20 (.error "boom") "k1").2.2
            = .err ("failed to fetch jwks: " ++ "boom"))
    ∧ ((runGetKeys stA (.ok resA) [(50, "k1"), (90, "nope")]).1 = stA
        ∧ (runGetKeys stA (.ok resA) [(50, "k1"), (90, "nope")]).2.1 = 0) :=
  ⟨by decide,
   (c4_getKeyCache ⟨600, 10, none⟩ 20 (.ok resA) "k1").2.1 resA (by decide) rfl,
   (c4_getKeyCache ⟨600, 10, none⟩ 20 (.error "boom") "k1").2.2.1 "boom" (by decide) rfl,
   (c4_getKeyCache stA 0 (.ok resA) "k1").2.2.2 [(50, "k1"), (90, "nope")] (by decide)⟩

/-! ### C7 — one fetch under contention -/

/-- On a populated fresh cache, a sequence of calls at times not
after `staleAfter` performs no fetch and every caller's lookup scans
the cached key set. -/
theorem runGetKeys_fresh (st : JWKSState) (fetch : Except String JwksResponse)
    (res : JwksResponse) (hjwks : st.jwks = some res) (calls : List (Int × String))
    (hfresh : ∀ p ∈ calls, ¬ st.jwksStaleAfter < p.1) :
    runGetKeys st fetch calls = (st, 0, calls.map (fun p => findKey res.keys p.2)) := by
  induction calls with
  | nil => rfl
  | cons p rest ih =>
    have hp := hfresh p (List.mem_cons_self p rest)
    have hrest := ih (fun q hq => hfresh q (List.mem_cons_of_mem p hq))
    have hgk : getKey st p.1 fetch p.2 = (st, false, findKey res.keys p.2) := by
      unfold getKey
      rw [if_neg hp, hjwks]
    cases p with
    | mk pt pk =>
      simp only [runGetKeys]
      rw [hgk, hrest]
      simp

/-- C7: the mutex in `JWKS.getKey` spans the whole call (staleness
check, fetch and lookup), so N concurrent callers execute as some
sequential order of whole calls.  Starting from a stale cache, with a
succeeding fetch and a non-negative TTL, any such order of
simultaneous callers performs exactly one key-set fetch, and every
caller's lookup scans the freshly installed key set. -/
theorem c7_concurrentSingleFetch (st : JWKSState) (now : Int) (res : JwksResponse)
    (kids : List String) (hstale : st.jwksStaleAfter < now) (httl : 0 ≤ st.ttl)
    (hne : kids ≠ []) :
    runGetKeys st (.ok res) (kids.map (fun k => (now, k)))
      = ({ st with jwks := some res, jwksStaleAfter := now + st.ttl }, 1,
         kids.map (fun k => findKey res.keys k)) := by
  cases kids with
  | nil => exact absurd rfl hne
  | cons k ks =>
    have hgk : getKey st now (.ok res) k
        = ({ st with jwks := some res, jwksStaleAfter := now + st.ttl }, true,
           findKey res.keys k) := by
      unfold getKey
      rw [if_pos hstale]
    have hrest : runGetKeys { st with jwks := some res, jwksStaleAfter := now + st.ttl }
          (.ok res) (ks.map (fun k2 => (now, k2)))
        = ({ st with jwks := some res, jwksStaleAfter := now + st.ttl }, 0,
           (ks.map (fun k2 => (now, k2))).map (fun p => findKey res.keys p.2)) := by
      refine runGetKeys_fresh _ _ res rfl _ ?_
      intro p hp
      simp only [List.mem_map] at hp
      obtain ⟨k2, _, hk2⟩ := hp
      rw [← hk2]
      simp only
      omega
    simp only [List.map_cons, runGetKeys]
    rw [hgk, hrest]
    simp [List.map_map, Function.comp]

/-- C7 (witness): three simultaneous callers on a stale cache: one
fetch, and all three see the new key set. -/
theorem c7_witness :
    runGetKeys ⟨600, 10, none⟩ (.ok resA)
        (["k1", "nope", "k1"].map (fun k => (20, k)))
      = ({ (⟨600, 10, none⟩ : JWKSState) with
            jwks := some resA, jwksStaleAfter := 20 + 600 }, 1,
         ["k1", "nope", "k1"].map (fun k => findKey resA.keys k)) :=
  c7_concurrentSingleFetch ⟨600, 10, none⟩ 20 resA ["k1", "nope", "k1"]
    (by decide) (by decide) (by decide)

/-! ### C2 / C3 — validation order and outcomes -/

/-- If the key function succeeded, every one of its checks passed:
the signing method is RSA, the token type matched, a `kid` was
present and resolved through `getKey`, the algorithms agree, and the
returned public key is the decoded JWK. -/
theorem validateTokenKeyfunc_ok (st : JWKSState) (now : Int)
    (fetch : Except String JwksResponse) (header : JwtHeader) (claims : Claims)
    (tokenType : String) (st' : JWKSState) (calls : Nat) (pk : RSAPublicKey)
    (h : validateTokenKeyfunc st now fetch header claims tokenType = (st', calls, .ok pk)) :
    isRSAMethod header.alg = true ∧ claims.tokenType = tokenType
    ∧ ∃ kid jwk, header.kid = some kid
        ∧ (getKey st now fetch kid).2.2 = .ok jwk
        ∧ header.alg = jwk.alg
        ∧ jwk.publicKey = .ok pk := by
  cases h1 : isRSAMethod header.alg with
  | false => simp [validateTokenKeyfunc, h1] at h
  | true =>
    by_cases h2 : claims.tokenType = tokenType
    · cases hkid : header.kid with
      | none => simp [validateTokenKeyfunc, h1, h2, hkid] at h
      | some kid =>
        cases hgk : getKey st now fetch kid with
        | mk st1 b =>
          cases b with
          | mk fetched r =>
            cases r with
            | err msg => simp [validateTokenKeyfunc, h1, h2, hkid, hgk] at h
            | nilDeref => simp [validateTokenKeyfunc, h1, h2, hkid, hgk] at h
            | ok jwk =>
              by_cases h3 : header.alg = jwk.alg
              · have h1b : isRSAMethod jwk.alg = true := by rw [← h3]; exact h1
                cases hpk : jwk.publicKey with
                | error msg =>
                  simp [validateTokenKeyfunc, h1, h1b, h2, hkid, hgk, h3, hpk] at h
                | ok pk2 =>
                  simp [validateTokenKeyfunc, h1, h1b, h2, hkid, hgk, h3, hpk] at h
                  exact ⟨rfl, h2, kid, jwk, rfl, by simp [hgk], h3,
                    by simp [hpk, h.2.2]⟩
              · simp [validateTokenKeyfunc, h1, h2, hkid, hgk, h3] at h
    · simp [validateTokenKeyfunc, h1, h2] at h

/-- An RSA-family signing method is one of the registered
algorithms. -/
theorem isRSAMethod_mem_knownAlgs (alg : String) (h : isRSAMethod alg = true) :
    alg ∈ knownAlgs := by
  simp [isRSAMethod] at h
  rcases h with (h | h) | h <;> subst h <;> simp [knownAlgs]

/-- C2: `ValidateToken` never returns usable claims unless every
check passed.  Whenever it returns a non-nil error the accompanying
claims are the zero `Claims` value; whenever it returns claims
without error, the temporal claims were within the validity window
and the signature verified under the public key resolved from the
token's `kid`; and whenever the token reaches the key-resolution
stage successfully but its signature or temporal claims fail the
check, the result is exactly the zero `Claims` with an error. -/
theorem c2_validateTokenChecks (verify : String → String → RSAPublicKey → Bool)
    (st : JWKSState) (now : Int) (fetch : Except String JwksResponse)
    (tok : TokenInput) (tokenType : String) :
    (∀ c e, validateResult verify st now fetch tok tokenType = .ret c (some e) →
        c = zeroClaims)
    ∧ (∀ c, validateResult verify st now fetch tok tokenType = .ret c none →
        claimsValid now c.registered = true
        ∧ ∃ header ss sig kid jwk pk,
            tok = .parsed header c ss sig
            ∧ header.kid = some kid
            ∧ (getKey st now fetch kid).2.2 = .ok jwk
            ∧ jwk.publicKey = .ok pk
            ∧ verify ss sig pk = true)
    ∧ (∀ header claims ss sig st' calls pk,
        tok = .parsed header claims ss sig →
        validateTokenKeyfunc st now fetch header claims tokenType = (st', calls, .ok pk) →
        claimsValid now claims.registered = false ∨ verify ss sig pk = false →
        validateResult verify st now fetch tok tokenType
          = .ret zeroClaims (some "failed to parse token: token is invalid")) := by
  refine ⟨?_, ?_, ?_⟩
  · intro c e h
    cases tok with
    | malformed =>
      simp [validateResult, ValidateToken] at h
      exact h.1.symm
    | parsed header claims ss sig =>
      by_cases halg : header.alg ∈ knownAlgs
      case neg =>
        simp [validateResult, ValidateToken, halg] at h
        exact h.1.symm
      case pos =>
        cases hkf : validateTokenKeyfunc st now fetch header claims tokenType with
        | mk st' b =>
          cases b with
          | mk calls kres =>
            cases kres with
            | panicked => simp [validateResult, ValidateToken, halg, hkf] at h
            | err msg =>
              simp [validateResult, ValidateToken, halg, hkf] at h
              exact h.1.symm
            | ok pk =>
              cases hcv : claimsValid now claims.registered with
              | false =>
                simp [validateResult, ValidateToken, halg, hkf, hcv] at h
                exact h.1.symm
              | true =>
                cases hvf : verify ss sig pk with
                | false =>
                  simp [validateResult, ValidateToken, halg, hkf, hcv, hvf] at h
                  exact h.1.symm
                | true =>
                  simp [validateResult, ValidateToken, halg, hkf, hcv, hvf] at h
  · intro c h
    cases tok with
    | malformed => simp [validateResult, ValidateToken] at h
    | parsed header claims ss sig =>
      by_cases halg : header.alg ∈ knownAlgs
      case neg => simp [validateResult, ValidateToken, halg] at h
      case pos =>
        cases hkf : validateTokenKeyfunc st now fetch header claims tokenType with
        | mk st' b =>
          cases b with
          | mk calls kres =>
            cases kres with
            | panicked => simp [validateResult, ValidateToken, halg, hkf] at h
            | err msg => simp [validateResult, ValidateToken, halg, hkf] at h
            | ok pk =>
              cases hcv : claimsValid now claims.registered with
              | false => simp [validateResult, ValidateToken, halg, hkf, hcv] at h
              | true =>
                cases hvf : verify ss sig pk with
                | false => simp [validateResult, ValidateToken, halg, hkf, hcv, hvf] at h
                | true =>
                  simp [validateResult, ValidateToken, halg, hkf, hcv, hvf] at h
                  obtain ⟨_, _, kid, jwk, hkid, hgk, _, hpk⟩ :=
                    validateTokenKeyfunc_ok st now fetch header claims tokenType
                      st' calls pk hkf
                  subst h
                  exact ⟨hcv, header, ss, sig, kid, jwk, pk, rfl, hkid, hgk, hpk, hvf⟩
  · intro header claims ss sig st' calls pk htok hkf hfail
    subst htok
    have hrsa := (validateTokenKeyfunc_ok st now fetch header claims tokenType
      st' calls pk hkf).1
    have halg : header.alg ∈ knownAlgs := isRSAMethod_mem_knownAlgs header.alg hrsa
    rcases hfail with hcv | hvf
    · simp [validateResult, ValidateToken, halg, hkf, hcv]
    · simp [validateResult, ValidateToken, halg, hkf, hvf]

/-- A signature oracle that rejects everything. -/
def verifyFalse : String → String → RSAPublicKey → Bool := fun _ _ _ => false

/-- C2 (witness): a valid `tokA` against the fresh cache `stA`
validates successfully, so the success hypothesis is satisfiable and
the theorem yields the signature/temporal guarantees for it; the
same token under a failing signature oracle yields exactly the zero
claims and an error. -/
theorem c2_witness :
    validateResult verifyTrue stA 50 (.ok resA) tokA "access_token" = .ret claimsA none
    ∧ (claimsValid 50 claimsA.registered = true
       ∧ ∃ header ss sig kid jwk pk,
          tokA = .parsed header claimsA ss sig
          ∧ header.kid = some kid
          ∧ (getKey stA 50 (.ok resA) kid).2.2 = .ok jwk
          ∧ jwk.publicKey = .ok pk
          ∧ verifyTrue ss sig pk = true)
    ∧ validateTokenKeyfunc stA 50 (.ok resA) ⟨"RS256", some "k1"⟩ claimsA "access_token"
        = (stA, 1, .ok ⟨65537, 65537⟩)
    ∧ validateResult verifyFalse stA 50 (.ok resA) tokA "access_token"
        = .ret zeroClaims (some "failed to parse token: token is invalid") :=
  ⟨rfl,
   (c2_validateTokenChecks verifyTrue stA 50 (.ok resA) tokA "access_token").2.1 claimsA rfl,
   rfl,
   (c2_validateTokenChecks verifyFalse stA 50 (.ok resA) tokA "access_token").2.2
     ⟨"RS256", some "k1"⟩ claimsA "hdr.body" "sig" stA 1 ⟨65537, 65537⟩ rfl rfl
     (Or.inr rfl)⟩

/-- C3: a parsed token whose claims carry a token type different from
the expected one is rejected by `ValidateToken` before key resolution
is attempted: the result is an error with the zero claims, `getKey`
is never called, the cache state is untouched, and the outcome does
not depend on the signature-verification oracle at all. -/
theorem c3_typeMismatchNoKeyLookup (verify : String → String → RSAPublicKey → Bool)
    (st : JWKSState) (now : Int) (fetch : Except String JwksResponse)
    (header : JwtHeader) (claims : Claims) (ss sig : String) (tokenType : String)
    (hty : claims.tokenType ≠ tokenType) :
    (ValidateToken verify st now fetch (.parsed header claims ss sig) tokenType).2.1 = 0
    ∧ (ValidateToken verify st now fetch (.parsed header claims ss sig) tokenType).1 = st
    ∧ (∃ msg, validateResult verify st now fetch (.parsed header claims ss sig) tokenType
        = .ret zeroClaims (some msg))
    ∧ (∀ verify2, ValidateToken verify2 st now fetch (.parsed header claims ss sig) tokenType
        = ValidateToken verify st now fetch (.parsed header claims ss sig) tokenType) := by
  cases h1 : isRSAMethod header.alg with
  | false =>
    have hkf : validateTokenKeyfunc st now fetch header claims tokenType
        = (st, 0, .err "unexpected signing method") := by
      simp [validateTokenKeyfunc, h1]
    by_cases halg : header.alg ∈ knownAlgs
    case neg =>
      refine ⟨?_, ?_,
        ⟨"failed to parse token: signing method (alg) is unavailable.", ?_⟩, ?_⟩ <;>
        simp [validateResult, ValidateToken, halg]
    case pos =>
      refine ⟨?_, ?_, ⟨"failed to parse token: unexpected signing method", ?_⟩, ?_⟩ <;>
        simp [validateResult, ValidateToken, halg, hkf]
  | true =>
    have hkf : validateTokenKeyfunc st now fetch header claims tokenType
        = (st, 0, .err "unexpected token type") := by
      simp [validateTokenKeyfunc, h1, hty]
    by_cases halg : header.alg ∈ knownAlgs
    case neg =>
      refine ⟨?_, ?_,
        ⟨"failed to parse token: signing method (alg) is unavailable.", ?_⟩, ?_⟩ <;>
        simp [validateResult, ValidateToken, halg]
    case pos =>
      refine ⟨?_, ?_, ⟨"failed to parse token: unexpected token type", ?_⟩, ?_⟩ <;>
        simp [validateResult, ValidateToken, halg, hkf]

/-- C3 (witness): an `id_token` presented where an `access_token` is
expected is rejected with zero `getKey` calls and an unchanged
cache. -/
theorem c3_witness :
    ("id_token" : String) ≠ "access_token"
    ∧ ((ValidateToken verifyTrue stA 50 (.ok resA)
          (.parsed ⟨"RS256", some "k1"⟩ { claimsA with tokenType := "id_token" }
            "hdr.body" "sig") "access_token").2.1 = 0
       ∧ (ValidateToken verifyTrue stA 50 (.ok resA)
          (.parsed ⟨"RS256", some "k1"⟩ { claimsA with tokenType := "id_token" }
            "hdr.body" "sig") "access_token").1 = stA
       ∧ (∃ msg, validateResult verifyTrue stA 50 (.ok resA)
          (.parsed ⟨"RS256", some "k1"⟩ { claimsA with tokenType := "id_token" }
            "hdr.body" "sig") "access_token" = .ret zeroClaims (some msg))
       ∧ (∀ verify2, ValidateToken verify2 stA 50 (.ok resA)
          (.parsed ⟨"RS256", some "k1"⟩ { claimsA with tokenType := "id_token" }
            "hdr.body" "sig") "access_token"
          = ValidateToken verifyTrue stA 50 (.ok resA)
          (.parsed ⟨"RS256", some "k1"⟩ { claimsA with tokenType := "id_token" }
            "hdr.body" "sig") "access_token")) :=
  ⟨by decide,
   c3_typeMismatchNoKeyLookup verifyTrue stA 50 (.ok resA) ⟨"RS256", some "k1"⟩
     { claimsA with tokenType := "id_token" } "hdr.body" "sig" "access_token" (by decide)⟩

/-! ### C1 — combined metrics+auth hooks -/

/-- C1: the `RequestRouted` of `CombineMetricsAndAuthHooks metrics
auth` (i) returns exactly the auth stage's error wrapped — so it is
non-nil precisely when the auth stage erred, and a metrics-stage
error is discarded and can never mask or replace the auth outcome —
and (ii) with the modelled Twirp metrics hook, the routed-request
counter for the request's service/method/organisation increments by
exactly one (and no other label changes) even when the auth stage
returns an error, for every auth hook that leaves the metrics
registry alone.  The auth stage runs first: the metrics stage reads
the post-auth context. -/
theorem c1_combineMetricsAndAuthHooks :
    (∀ (W C : Type) (metrics auth : ServerHooks W C) (w : W) (ctx : C),
        ((CombineMetricsAndAuthHooks metrics auth).run w ctx).2.2
            = ((auth.run w ctx).2.2).map GoErr.wrap
        ∧ (((CombineMetricsAndAuthHooks metrics auth).run w ctx).2.2 = none
            ↔ (auth.run w ctx).2.2 = none))
    ∧ (∀ (auth : ServerHooks MetricsWorld MetricsCtx)
        (w : MetricsWorld) (ctx : MetricsCtx) (s m : String),
        (∀ w2 c2, (auth.run w2 c2).1 = w2) →
        ((auth.run w ctx).2.1).serviceName = some s →
        ((auth.run w ctx).2.1).methodName = some m →
        ((CombineMetricsAndAuthHooks twirpMetricsHooks auth).run w ctx).1
            (s, m, metricsContextOrg (auth.run w ctx).2.1)
          = w (s, m, metricsContextOrg (auth.run w ctx).2.1) + 1
        ∧ ∀ l, l ≠ (s, m, metricsContextOrg (auth.run w ctx).2.1) →
            ((CombineMetricsAndAuthHooks twirpMetricsHooks auth).run w ctx).1 l = w l) := by
  constructor
  · intro W C metrics auth w ctx
    have hmap : ((CombineMetricsAndAuthHooks metrics auth).run w ctx).2.2
        = ((auth.run w ctx).2.2).map GoErr.wrap := by
      cases hA : auth.requestRouted with
      | none =>
        cases hM : metrics.requestRouted <;>
          simp [CombineMetricsAndAuthHooks, ServerHooks.run, hA, hM]
      | some f =>
        cases hM : metrics.requestRouted <;>
          simp [CombineMetricsAndAuthHooks, ServerHooks.run, hA, hM]
    refine ⟨hmap, ?_⟩
    rw [hmap]
    exact Option.map_eq_none'
  · intro auth w ctx s m hpres hs hm
    have hworld : ((CombineMetricsAndAuthHooks twirpMetricsHooks auth).run w ctx).1
        = incrCounter w (s, m, metricsContextOrg (auth.run w ctx).2.1) := by
      cases hA : auth.requestRouted with
      | none =>
        simp only [ServerHooks.run, hA] at hs hm ⊢
        simp [CombineMetricsAndAuthHooks, twirpMetricsHooks, ServerHooks.run, hA,
          metricsRequestRouted, hs, hm]
      | some f =>
        have hw : (f w ctx).1 = w := by
          have := hpres w ctx
          simpa [ServerHooks.run, hA] using this
        simp only [ServerHooks.run, hA] at hs hm ⊢
        simp [CombineMetricsAndAuthHooks, twirpMetricsHooks, ServerHooks.run, hA,
          metricsRequestRouted, hs, hm, hw]
    rw [hworld]
    constructor
    · simp [incrCounter]
    · intro l hl
      simp [incrCounter, hl]

/-- An auth hook that rejects every request with an error, leaving
the world and the context untouched (the shape of a failed Twirp
authentication). -/
def authAlwaysFail : ServerHooks MetricsWorld MetricsCtx :=
  { requestRouted := some (fun w c => (w, c, some (.base "Unauthenticated"))) }

/-- An empty metrics registry. -/
def emptyWorld : MetricsWorld := fun _ => 0

/-- A routed request context with no authentication information. -/
def ctxSvc : MetricsCtx := ⟨some "svc", some "mth", none⟩

/-- C1 (witness): under a failing auth hook the combined hook still
increments the `(svc, mth, "")` counter by exactly one, and the
composite error is the auth error wrapped. -/
theorem c1_witness :
    ((CombineMetricsAndAuthHooks twirpMetricsHooks authAlwaysFail).run emptyWorld ctxSvc).1
        ("svc", "mth", metricsContextOrg (authAlwaysFail.run emptyWorld ctxSvc).2.1)
      = emptyWorld ("svc", "mth", metricsContextOrg (authAlwaysFail.run emptyWorld ctxSvc).2.1) + 1
    ∧ ((CombineMetricsAndAuthHooks twirpMetricsHooks authAlwaysFail).run emptyWorld ctxSvc).2.2
      = some (.wrap (.base "Unauthenticated")) :=
  ⟨((c1_combineMetricsAndAuthHooks.2 authAlwaysFail emptyWorld ctxSvc "svc" "mth"
      (fun _ _ => rfl) rfl rfl).1),
   ((c1_combineMetricsAndAuthHooks.1 MetricsWorld MetricsCtx twirpMetricsHooks
      authAlwaysFail emptyWorld ctxSvc).1).trans rfl⟩

/-! ### C5 — who rejects and who records -/

/-- C5 (counterexample): the claim says the Twirp auth hook's
`RequestRouted` does not itself reject a request without a valid
token and records the failure in the auth context.  On a request with
no headers the hook returns a non-nil `Unauthenticated` error (which
aborts the request in Twirp) and the returned context is unchanged:
`GetAuth` still reports that no authentication information is
present, so nothing was recorded. -/
theorem c5_counterexample :
    TwirpAuthenticate parseA verifyTrue stA 50 (.ok resA) none none
      = (stA, .ret none (some .unauthenticated))
    ∧ GetAuth none = .noAuthInfo :=
  ⟨rfl, rfl⟩

/-- C5 (amended): it is the HTTP middleware that has the
record-and-continue semantics: for every request whose bearer token
is absent or fails validation, `HTTPMiddleware` does not reject — it
stores the failure with `SetAuth` and invokes the wrapped handler —
while the Twirp auth hook's `RequestRouted` (`TwirpAuthenticate`)
returns an Unauthenticated error without recording anything in the
auth context. -/
theorem c5_failureSemantics :
    (∀ parse verify st (now : Int) fetch authHeader reqCtx e,
        getAuthToken authHeader = .error e →
        HTTPMiddleware parse verify st now fetch authHeader reqCtx
          = (st, .handlerCalled (SetAuth reqCtx zeroAuthInfo (some e))))
    ∧ (∀ parse verify st (now : Int) fetch authHeader reqCtx tokenStr st' n c msg,
        getAuthToken authHeader = .ok tokenStr →
        Validate verify st now fetch (parse tokenStr) = (st', n, .ret c (some msg)) →
        HTTPMiddleware parse verify st now fetch authHeader reqCtx
          = (st', .handlerCalled (SetAuth reqCtx zeroAuthInfo (some (.validation msg)))))
    ∧ (∀ parse verify st (now : Int) fetch ctx,
        TwirpAuthenticate parse verify st now fetch none ctx
          = (st, .ret ctx (some .unauthenticated)))
    ∧ (∀ parse verify st (now : Int) fetch authHeader ctx e,
        getAuthToken authHeader = .error e →
        TwirpAuthenticate parse verify st now fetch (some authHeader) ctx
          = (st, .ret ctx (some .unauthenticated)))
    ∧ (∀ parse verify st (now : Int) fetch authHeader ctx tokenStr st' n c msg,
        getAuthToken authHeader = .ok tokenStr →
        Validate verify st now fetch (parse tokenStr) = (st', n, .ret c (some msg)) →
        TwirpAuthenticate parse verify st now fetch (some authHeader) ctx
          = (st', .ret ctx (some .unauthenticated))) := by
  refine ⟨?_, ?_, ?_, ?_, ?_⟩
  · intro parse verify st now fetch authHeader reqCtx e hget
    simp [HTTPMiddleware, hget]
  · intro parse verify st now fetch authHeader reqCtx tokenStr st' n c msg hget hval
    simp [HTTPMiddleware, hget, hval]
  · intro parse verify st now fetch ctx
    rfl
  · intro parse verify st now fetch authHeader ctx e hget
    simp [TwirpAuthenticate, hget]
  · intro parse verify st now fetch authHeader ctx tokenStr st' n c msg hget hval
    simp [TwirpAuthenticate, hget, hval]

/-- Claims that expired at time 10. -/
def claimsExpired : Claims := { claimsA with registered := ⟨"sub", some 10, none, none⟩ }

/-- A token carrying `claimsExpired`. -/
def tokExpired : TokenInput := .parsed ⟨"RS256", some "k1"⟩ claimsExpired "hdr.body" "sig"

/-- A structural parser that always yields `tokExpired`. -/
def parseExpired : String → TokenInput := fun _ => tokExpired

/-- C5 (witness): a request with a `Basic` scheme header carries no
bearer token; the HTTP middleware calls the handler with `ErrNoToken`
recorded, and the Twirp hook rejects it without recording.  An
expired token makes the HTTP middleware call the handler with the
validation failure recorded. -/
theorem c5_witness :
    getAuthToken "Basic abc" = .error .noToken
    ∧ HTTPMiddleware parseA verifyTrue stA 50 (.ok resA) "Basic abc" none
        = (stA, .handlerCalled (SetAuth none zeroAuthInfo (some .noToken)))
    ∧ TwirpAuthenticate parseA verifyTrue stA 50 (.ok resA) (some "Basic abc") none
        = (stA, .ret none (some .unauthenticated))
    ∧ HTTPMiddleware parseExpired verifyTrue stA 50 (.ok resA) "Bearer t" none
        = (stA, .handlerCalled (SetAuth none zeroAuthInfo
            (some (.validation "failed to parse token: token is invalid")))) :=
  ⟨rfl,
   c5_failureSemantics.1 parseA verifyTrue stA 50 (.ok resA) "Basic abc" none .noToken rfl,
   c5_failureSemantics.2.2.2.1 parseA verifyTrue stA 50 (.ok resA) "Basic abc" none
     .noToken rfl,
   c5_failureSemantics.2.1 parseExpired verifyTrue stA 50 (.ok resA) "Bearer t" none
     "t" stA 1 zeroClaims "failed to parse token: token is invalid" rfl rfl⟩

/-! ### C6 — the missing-`kid` panic -/

/-- C6 (code bug): the claim says `HTTPMiddleware` invokes the
wrapped handler exactly once for every request.  A syntactically
valid token whose header carries no `kid` (RSA algorithm, expected
token type) drives `ValidateToken` into the unchecked type assertion
`token.Header["kid"].(string)`, which panics: the handler is never
invoked and no auth result is recorded for the request. -/
theorem c6_kidPanicNoHandlerCall :
    HTTPMiddleware parseNoKid verifyTrue stA 50 (.ok resA) "Bearer x" none
      = (stA, .panicked)
    ∧ validateResult verifyTrue stA 50 (.ok resA) tokNoKid "access_token" = .panicked :=
  ⟨rfl, rfl⟩

end Panurge
